import Mathlib

/-!
Shallow embedding of `src/bot.py` (a Discord bot with two slash commands:
`sendms`, a bulk message relay, and `changenick`, a nickname batch command),
together with proofs about its cooldown tracker, relay control flow, and
batch-mutation loop.

Modelling conventions:
* The monotonic clock (`asyncio.get_event_loop().time()`) yields rationals;
  the k-th call made by a handler invocation reads `time k` from an explicit
  stream `time : Nat → ℚ`.
* The module-level dicts `user_last` / `guild_last` are passed explicitly as
  association lists `List (Int × ℚ)`; `dict.get(k, 0)` and `dict[k] = v`
  become `dictGet`/`dictSet`.
* Python `int(x)` (truncation toward zero) is `pyInt`; Python truthiness of
  an optional integer (`if user_wait:`) is `pyTruthyInt`; `a or 0` on an
  optional integer is `pyOrZero`.
* Network effects (`channel.send`, `member.edit`) are abstracted by outcome
  oracles; the library's `discord.Forbidden` exception is one constructor,
  any other exception another (carrying the text used in the reply).
-/

namespace Bot

/-- `dict.get(k, default)` with the entry absent ↦ `none`: lookup in an
association list. -/
def dictGet (d : List (Int × ℚ)) (k : Int) : Option ℚ :=
  (d.find? (fun p => p.1 == k)).map Prod.snd

/-- `dict[k] = v`: replace any existing binding of `k` by `v`. -/
def dictSet (d : List (Int × ℚ)) (k : Int) (v : ℚ) : List (Int × ℚ) :=
  (k, v) :: d.filter (fun p => !(p.1 == k))

/-- Python `int(x)`: truncation toward zero. -/
def pyInt (x : ℚ) : ℤ :=
  if 0 ≤ x then ⌊x⌋ else ⌈x⌉

/-- Python truthiness of `Optional[int]`: `None` and `0` are falsy. -/
def pyTruthyInt : Option ℤ → Bool
  | none => false
  | some w => !(w == 0)

/-- `interaction.guild_id or 0` (bot.py line 70): `None` and `0` are falsy. -/
def pyOrZero : Option Int → Int
  | none => 0
  | some v => if v == 0 then 0 else v

/-- `USER_COOLDOWN_SECS = 20` (bot.py line 43). -/
def USER_COOLDOWN_SECS : ℚ := 20

/-- `GUILD_COOLDOWN_SECS = 5` (bot.py line 44). -/
def GUILD_COOLDOWN_SECS : ℚ := 5

/-- `is_on_user_cooldown` (bot.py lines 49–52):
`last = user_last.get(user_id, 0)`;
`remaining = USER_COOLDOWN_SECS - (now - last)`;
`return int(remaining) if remaining > 0 else None`. -/
def is_on_user_cooldown (user_last : List (Int × ℚ)) (now : ℚ) (user_id : Int) :
    Option ℤ :=
  let last := (dictGet user_last user_id).getD 0
  let remaining := USER_COOLDOWN_SECS - (now - last)
  if remaining > 0 then some (pyInt remaining) else none

/-- `is_on_guild_cooldown` (bot.py lines 54–57), same body with the 5 s window. -/
def is_on_guild_cooldown (guild_last : List (Int × ℚ)) (now : ℚ) (guild_id : Int) :
    Option ℤ :=
  let last := (dictGet guild_last guild_id).getD 0
  let remaining := GUILD_COOLDOWN_SECS - (now - last)
  if remaining > 0 then some (pyInt remaining) else none

/-! ### Message relay (`sendms`, bot.py lines 65–106) -/

/-- ASCII whitespace as recognised by Python's `str.strip()` (we do not model
the exotic Unicode space classes, which no claim exercises). -/
def pyIsSpace (c : Char) : Bool :=
  c == ' ' || c == '\t' || c == '\n' || c == '\r' || c == '\x0b' || c == '\x0c'

/-- Truthiness of `m and m.strip()`: the payload is kept iff it is non-empty
and stripping whitespace leaves it non-empty. -/
def pyKeep (s : String) : Bool :=
  !s.data.isEmpty && s.data.any (fun c => !pyIsSpace c)

/-- One iteration of the normalisation loop (bot.py lines 84–86):
`if m and m.strip(): msgs.append(m[:2000])`, skipping a `None` payload. -/
def appendMsg (acc : List String) (m : Option String) : List String :=
  match m with
  | none => acc
  | some s => if pyKeep s then acc ++ [String.mk (s.data.take 2000)] else acc

/-- The `msgs` list built by the loop over `(m1, m2, m3)` (bot.py lines 83–86). -/
def normalizeMsgs (m1 : String) (m2 m3 : Option String) : List String :=
  [some m1, m2, m3].foldl appendMsg []

/-- Spec-side restatement of normalisation ("drop null/blank payloads,
truncate each retained payload to its first 2000 units, preserving order"),
to be compared with `normalizeMsgs`. -/
def normalizeSpecSide (m1 : String) (m2 m3 : Option String) : List String :=
  (([some m1, m2, m3].filterMap id).filter
      (fun s => !s.data.all pyIsSpace)).map
    (fun s => String.mk (s.data.take 2000))

/-- Result of one `interaction.channel.send(content)` call. -/
inductive SendOutcome where
  | ok
  | forbidden
  | err (e : String)
deriving DecidableEq

/-- The exception, if any, that aborted the send loop. -/
inductive SendFailure where
  | forbidden
  | err (e : String)
deriving DecidableEq

/-- The failure (if any) a given send outcome raises. -/
def outcomeFailure : SendOutcome → Option SendFailure
  | SendOutcome.ok => none
  | SendOutcome.forbidden => some SendFailure.forbidden
  | SendOutcome.err e => some (SendFailure.err e)

/-- Trace of the send loop: contents delivered to the channel, number of
`send` calls made, and the exception (if any) that aborted the loop. -/
structure SendRun where
  sent : List String
  calls : Nat
  failure : Option SendFailure
deriving DecidableEq

/-- The `for i, content in enumerate(msgs): await interaction.channel.send(...)`
loop (bot.py lines 95–98). A raised exception aborts the remaining
iterations; earlier sends stand. The 0.7 s pacing sleep has no observable
effect here and is not modelled. -/
def sendLoop (send : Nat → SendOutcome) : Nat → List String → SendRun
  | _, [] => ⟨[], 0, none⟩
  | i, c :: rest =>
    match send i with
    | SendOutcome.ok =>
      let r := sendLoop send (i + 1) rest
      ⟨c :: r.sent, r.calls + 1, r.failure⟩
    | SendOutcome.forbidden => ⟨[], 1, some SendFailure.forbidden⟩
    | SendOutcome.err e => ⟨[], 1, some (SendFailure.err e)⟩

/-- The user-visible responses `sendms` can emit (bot.py lines 74–106). -/
inductive Reply where
  | userCooldown (w : ℤ)
  | guildCooldown
  | noValid
  | ack
  | sentOk (n : Nat)
  | forbiddenMsg
  | genericFail (e : String)
deriving DecidableEq

/-- Observable outcome of one `sendms` invocation. -/
structure SendmsResult where
  responses : List Reply
  sent : List String
  sendCalls : Nat
  user_last : List (Int × ℚ)
  guild_last : List (Int × ℚ)
deriving DecidableEq

/-- The `sendms` handler (bot.py lines 67–106), with the module state
(`user_last`, `guild_last`), the clock stream, and the channel-send oracle
passed explicitly.  Clock calls in order: user-cooldown check (`time 0`),
guild-cooldown check (`time 1`), then — only after every send succeeded —
the two recording calls (`time 2`, `time 3`). -/
def sendms (user_last guild_last : List (Int × ℚ)) (time : Nat → ℚ)
    (send : Nat → SendOutcome) (uid : Int) (guildId : Option Int)
    (m1 : String) (m2 m3 : Option String) : SendmsResult :=
  let gid := pyOrZero guildId
  let user_wait := is_on_user_cooldown user_last (time 0) uid
  if pyTruthyInt user_wait then
    ⟨[Reply.userCooldown (user_wait.getD 0)], [], 0, user_last, guild_last⟩
  else
    let guild_wait := is_on_guild_cooldown guild_last (time 1) gid
    if pyTruthyInt guild_wait then
      ⟨[Reply.guildCooldown], [], 0, user_last, guild_last⟩
    else
      let msgs := normalizeMsgs m1 m2 m3
      if msgs.isEmpty then
        ⟨[Reply.noValid], [], 0, user_last, guild_last⟩
      else
        let run := sendLoop send 0 msgs
        match run.failure with
        | none =>
          ⟨[Reply.ack, Reply.sentOk msgs.length], run.sent, run.calls,
            dictSet user_last uid (time 2), dictSet guild_last gid (time 3)⟩
        | some SendFailure.forbidden =>
          ⟨[Reply.ack, Reply.forbiddenMsg], run.sent, run.calls,
            user_last, guild_last⟩
        | some (SendFailure.err e) =>
          ⟨[Reply.ack, Reply.genericFail e], run.sent, run.calls,
            user_last, guild_last⟩

/-! ### Nickname batch (`changenick`, bot.py lines 118–177) -/

/-- The attributes of a guild member the handler reads. -/
structure Member where
  id : Int
  bot : Bool
  displayName : String
  topRolePos : Int
  manageNicknames : Bool
deriving DecidableEq

/-- A guild: owner id plus the platform's member list in enumeration order. -/
structure Guild where
  ownerId : Int
  members : List Member
deriving DecidableEq

/-- The invoking actor (`interaction.user`). -/
structure Invoker where
  id : Int
  manageNicknames : Bool
deriving DecidableEq

/-- Result of one `m.edit(nick=..., reason=...)` call. -/
inductive EditOutcome where
  | ok
  | forbidden
  | err (e : String)
deriving DecidableEq

/-- The user-visible responses `changenick` can emit. -/
inductive NickReply where
  | notInGuild
  | needPerm
  | botNeedPerm
  | needMember
  | summary (out : String)
deriving DecidableEq

/-- `MAX_CHANGE = 50` (bot.py line 140). -/
def MAX_CHANGE : Nat := 50

/-- Trace of the per-target loop: `success`, `failed`, and the members on
which `m.edit` was actually called. -/
structure BatchOut where
  success : List String
  failed : List (String × String)
  editCalls : List Member
deriving DecidableEq

/-- The `for m in targets:` loop (bot.py lines 154–169).  The guild owner and
members whose top role is not strictly below the bot's are recorded as failed
without an edit call; otherwise the edit is attempted and its outcome
recorded.  The 0.25 s pacing sleep has no observable effect here and is not
modelled. -/
def nickLoop (ownerId botTopPos : Int) (edit : Member → EditOutcome) :
    List Member → BatchOut
  | [] => ⟨[], [], []⟩
  | m :: rest =>
    let r := nickLoop ownerId botTopPos edit rest
    if m.id == ownerId then
      ⟨r.success, (m.displayName, "Server owner (cannot change)") :: r.failed,
        r.editCalls⟩
    else if botTopPos ≤ m.topRolePos then
      ⟨r.success, (m.displayName, "Role is equal or higher than bot") :: r.failed,
        r.editCalls⟩
    else
      match edit m with
      | EditOutcome.ok => ⟨m.displayName :: r.success, r.failed, m :: r.editCalls⟩
      | EditOutcome.forbidden =>
        ⟨r.success, (m.displayName, "Forbidden") :: r.failed, m :: r.editCalls⟩
      | EditOutcome.err e =>
        ⟨r.success, (m.displayName, "Error: " ++ e) :: r.failed, m :: r.editCalls⟩

/-- The final summary string (bot.py lines 171–175). -/
def summaryOut (success : List String) (failed : List (String × String)) :
    String :=
  "✅ Done. Changed " ++ toString success.length ++ " nickname(s). Failed: "
    ++ toString failed.length ++ ".\n"
    ++ (if success.isEmpty then ""
        else "Changed: " ++ String.intercalate ", " (success.take 20) ++ "\n")
    ++ (if failed.isEmpty then ""
        else "Failed:\n" ++ String.intercalate "\n"
          ((failed.take 40).map (fun p => "- " ++ p.1 ++ " — " ++ p.2)))

/-- Observable outcome of one `changenick` invocation. -/
structure ChangenickResult where
  reply : NickReply
  targets : List Member
  success : List String
  failed : List (String × String)
  editCalls : List Member
deriving DecidableEq

/-- Target resolution for `change_many` (bot.py lines 139–144): all guild
members excluding bots and the bot itself, in the platform's enumeration
order, truncated to `MAX_CHANGE`. -/
def resolveMany (guild : Guild) (botId : Int) : List Member :=
  let ms := guild.members.filter (fun m => !m.bot && !(m.id == botId))
  if ms.length > MAX_CHANGE then ms.take MAX_CHANGE else ms

/-- The batch phase of `changenick` (bot.py lines 151–177): run the loop over
the resolved targets and produce the final summary response. -/
def runBatch (guild : Guild) (bot_member : Member) (edit : Member → EditOutcome)
    (targets : List Member) : ChangenickResult :=
  let r := nickLoop guild.ownerId bot_member.topRolePos edit targets
  ⟨NickReply.summary (summaryOut r.success r.failed), targets,
    r.success, r.failed, r.editCalls⟩

/-- The `changenick` handler (bot.py lines 118–177), with the guild context,
invoker, the bot's user id, and the edit oracle passed explicitly.
Checks in source order: guild context; invoker has Manage Nicknames or is the
owner; the bot's own member exists and has Manage Nicknames.  Target
resolution: with `change_many`, `resolveMany`; otherwise the single specified
member, failing if none was given. -/
def changenick (g : Option Guild) (invoker : Invoker) (botId : Int)
    (edit : Member → EditOutcome) (member : Option Member)
    (change_many : Bool) : ChangenickResult :=
  match g with
  | none => ⟨NickReply.notInGuild, [], [], [], []⟩
  | some guild =>
    if !(invoker.manageNicknames || invoker.id == guild.ownerId) then
      ⟨NickReply.needPerm, [], [], [], []⟩
    else
      match guild.members.find? (fun m => m.id == botId) with
      | none => ⟨NickReply.botNeedPerm, [], [], [], []⟩
      | some bot_member =>
        if !bot_member.manageNicknames then
          ⟨NickReply.botNeedPerm, [], [], [], []⟩
        else
          if change_many then
            runBatch guild bot_member edit (resolveMany guild botId)
          else
            match member with
            | none => ⟨NickReply.needMember, [], [], [], []⟩
            | some m => runBatch guild bot_member edit [m]

/-! ### Helper lemmas -/

theorem pyInt_eq_floor (x : ℚ) (h : 0 ≤ x) : pyInt x = ⌊x⌋ := by
  unfold pyInt
  rw [if_pos h]

/-! ### Claims about the cooldown tracker (C1, C2) -/

/-- C1 (counterexample): the claim says a never-seen scope key is reported
not-on-cooldown for every current time.  But `user_last.get(user_id, 0)`
defaults the last-action time to `0`, so with an empty map and clock value
`0` the check reports a 20-second cooldown for key `7`. -/
theorem C1_counterexample :
    dictGet ([] : List (Int × ℚ)) 7 = none ∧
    is_on_user_cooldown [] 0 7 = some 20 := by
  with_unfolding_all decide

/-- C1 (amended): for a scope key with no recorded entry, the check treats
the last action as having happened at clock value `0`; it returns `none`
exactly when the current time is at least the window (20 s user / 5 s
guild), not for every current time. -/
theorem C1_never_seen_key_amended (d : List (Int × ℚ)) (k : Int) (now : ℚ)
    (h : dictGet d k = none) :
    (is_on_user_cooldown d now k = none ↔ USER_COOLDOWN_SECS ≤ now) ∧
    (is_on_guild_cooldown d now k = none ↔ GUILD_COOLDOWN_SECS ≤ now) := by
  unfold is_on_user_cooldown is_on_guild_cooldown
  rw [h]
  simp only [Option.getD_none]
  have gen : ∀ w : ℚ,
      ((if w - (now - 0) > 0 then some (pyInt (w - (now - 0))) else none) = none
        ↔ w ≤ now) := by
    intro w
    split_ifs with hr
    · constructor
      · intro hc
        simp at hc
      · intro hw
        exfalso
        rw [sub_zero] at hr
        linarith
    · constructor
      · intro _
        rw [sub_zero] at hr
        push_neg at hr
        linarith
      · intro _
        rfl
  exact ⟨gen USER_COOLDOWN_SECS, gen GUILD_COOLDOWN_SECS⟩

theorem C1_never_seen_key_amended_witness :
    (is_on_user_cooldown [] 25 0 = none ↔ USER_COOLDOWN_SECS ≤ 25) ∧
    (is_on_guild_cooldown [] 25 0 = none ↔ GUILD_COOLDOWN_SECS ≤ 25) :=
  C1_never_seen_key_amended [] 0 25 rfl

/-- C2 (counterexample): the claim says a strictly positive remaining time is
reported as `ceil(remaining)`, a strictly positive integer.  But the code
returns `int(remaining)` (truncation): with the last action recorded at `0`
and the clock at `39/2 = 19.5`, remaining is `0.5 > 0`, `ceil` would be `1`,
yet the check returns `0` — not strictly positive and not the ceiling. -/
theorem C2_counterexample :
    dictGet [((5 : Int), (0 : ℚ))] 5 = some 0 ∧
    (0 : ℚ) < USER_COOLDOWN_SECS - (39 / 2 - 0) ∧
    is_on_user_cooldown [((5 : Int), (0 : ℚ))] (39 / 2) 5 = some 0 ∧
    ⌈USER_COOLDOWN_SECS - ((39 / 2 : ℚ) - 0)⌉ = 1 ∧
    ¬ ((0 : ℤ) > 0) := by
  with_unfolding_all decide

/-- C2 (amended): for a scope key whose recorded last-action time is `last`,
with `remaining = window - (now - last)`: if `remaining > 0` the check
returns `some ⌊remaining⌋` (truncation, not `ceil`), which is non-negative
and strictly positive whenever `remaining ≥ 1`; if `remaining ≤ 0` (in
particular at `now = last + window`) it returns `none`.  Stated for both the
user window (20 s) and the guild window (5 s). -/
theorem C2_recorded_key_amended (d : List (Int × ℚ)) (k : Int) (last now : ℚ)
    (h : dictGet d k = some last) :
    (0 < USER_COOLDOWN_SECS - (now - last) →
      is_on_user_cooldown d now k = some ⌊USER_COOLDOWN_SECS - (now - last)⌋ ∧
      0 ≤ ⌊USER_COOLDOWN_SECS - (now - last)⌋) ∧
    (1 ≤ USER_COOLDOWN_SECS - (now - last) →
      ∃ w : ℤ, is_on_user_cooldown d now k = some w ∧ 0 < w) ∧
    (USER_COOLDOWN_SECS - (now - last) ≤ 0 →
      is_on_user_cooldown d now k = none) ∧
    (0 < GUILD_COOLDOWN_SECS - (now - last) →
      is_on_guild_cooldown d now k = some ⌊GUILD_COOLDOWN_SECS - (now - last)⌋ ∧
      0 ≤ ⌊GUILD_COOLDOWN_SECS - (now - last)⌋) ∧
    (1 ≤ GUILD_COOLDOWN_SECS - (now - last) →
      ∃ w : ℤ, is_on_guild_cooldown d now k = some w ∧ 0 < w) ∧
    (GUILD_COOLDOWN_SECS - (now - last) ≤ 0 →
      is_on_guild_cooldown d now k = none) := by
  unfold is_on_user_cooldown is_on_guild_cooldown
  rw [h]
  simp only [Option.getD_some]
  have gen : ∀ w : ℚ,
      (0 < w - (now - last) →
        (if w - (now - last) > 0 then some (pyInt (w - (now - last))) else none)
          = some ⌊w - (now - last)⌋ ∧ 0 ≤ ⌊w - (now - last)⌋) ∧
      (1 ≤ w - (now - last) →
        ∃ z : ℤ, (if w - (now - last) > 0 then some (pyInt (w - (now - last)))
          else none) = some z ∧ 0 < z) ∧
      (w - (now - last) ≤ 0 →
        (if w - (now - last) > 0 then some (pyInt (w - (now - last)))
          else none) = none) := by
    intro w
    refine ⟨?_, ?_, ?_⟩
    · intro hp
      rw [if_pos hp, pyInt_eq_floor _ hp.le]
      exact ⟨rfl, Int.floor_nonneg.mpr hp.le⟩
    · intro h1
      have hp : (0 : ℚ) < w - (now - last) := lt_of_lt_of_le one_pos h1
      refine ⟨⌊w - (now - last)⌋, ?_, ?_⟩
      · rw [if_pos hp, pyInt_eq_floor _ hp.le]
      · have h2 : (1 : ℤ) ≤ ⌊w - (now - last)⌋ := by
          rw [Int.le_floor]
          exact_mod_cast h1
        linarith
    · intro hnp
      exact if_neg (not_lt.mpr hnp)
  obtain ⟨u1, u2, u3⟩ := gen USER_COOLDOWN_SECS
  obtain ⟨g1, g2, g3⟩ := gen GUILD_COOLDOWN_SECS
  exact ⟨u1, u2, u3, g1, g2, g3⟩

theorem C2_recorded_key_amended_witness :
    (0 < USER_COOLDOWN_SECS - ((110 : ℚ) - 100) →
      is_on_user_cooldown [((5 : Int), (100 : ℚ))] 110 5
          = some ⌊USER_COOLDOWN_SECS - ((110 : ℚ) - 100)⌋ ∧
      0 ≤ ⌊USER_COOLDOWN_SECS - ((110 : ℚ) - 100)⌋) ∧
    (1 ≤ USER_COOLDOWN_SECS - ((110 : ℚ) - 100) →
      ∃ w : ℤ, is_on_user_cooldown [((5 : Int), (100 : ℚ))] 110 5 = some w ∧
        0 < w) ∧
    (USER_COOLDOWN_SECS - ((110 : ℚ) - 100) ≤ 0 →
      is_on_user_cooldown [((5 : Int), (100 : ℚ))] 110 5 = none) ∧
    (0 < GUILD_COOLDOWN_SECS - ((110 : ℚ) - 100) →
      is_on_guild_cooldown [((5 : Int), (100 : ℚ))] 110 5
          = some ⌊GUILD_COOLDOWN_SECS - ((110 : ℚ) - 100)⌋ ∧
      0 ≤ ⌊GUILD_COOLDOWN_SECS - ((110 : ℚ) - 100)⌋) ∧
    (1 ≤ GUILD_COOLDOWN_SECS - ((110 : ℚ) - 100) →
      ∃ w : ℤ, is_on_guild_cooldown [((5 : Int), (100 : ℚ))] 110 5 = some w ∧
        0 < w) ∧
    (GUILD_COOLDOWN_SECS - ((110 : ℚ) - 100) ≤ 0 →
      is_on_guild_cooldown [((5 : Int), (100 : ℚ))] 110 5 = none) :=
  C2_recorded_key_amended [((5 : Int), (100 : ℚ))] 5 100 110 rfl

/-! ### Claim C7: relay input normalisation -/

theorem pyKeep_eq_not_all_space (s : String) :
    pyKeep s = !s.data.all pyIsSpace := by
  unfold pyKeep
  rw [List.all_eq_not_any_not, Bool.not_not]
  cases hd : s.data with
  | nil => rfl
  | cons c cs => rfl

theorem foldl_appendMsg_acc (l : List (Option String)) (acc : List String) :
    l.foldl appendMsg acc = acc ++ l.foldl appendMsg [] := by
  induction l generalizing acc with
  | nil => simp
  | cons m rest ih =>
    rw [List.foldl_cons, List.foldl_cons, ih (appendMsg acc m),
      ih (appendMsg [] m)]
    cases m with
    | none => simp [appendMsg]
    | some s =>
      simp only [appendMsg]
      split_ifs <;> simp

theorem normalize_foldl_eq (l : List (Option String)) :
    l.foldl appendMsg []
      = ((l.filterMap id).filter (fun s => !s.data.all pyIsSpace)).map
          (fun s => String.mk (s.data.take 2000)) := by
  induction l with
  | nil => rfl
  | cons m rest ih =>
    rw [List.foldl_cons, foldl_appendMsg_acc, ih]
    cases m with
    | none => simp [appendMsg]
    | some s =>
      cases hall : s.data.all pyIsSpace with
      | false =>
        have hk : pyKeep s = true := by
          rw [pyKeep_eq_not_all_space, hall]
          rfl
        simp [appendMsg, hk, List.filterMap_cons, List.filter_cons, hall]
      | true =>
        have hk : pyKeep s = false := by
          rw [pyKeep_eq_not_all_space, hall]
          rfl
        simp [appendMsg, hk, List.filterMap_cons, List.filter_cons, hall]

theorem normalizeMsgs_single (s : String) (hk : s.data.all pyIsSpace = false) :
    normalizeMsgs s none none = [String.mk (s.data.take 2000)] := by
  unfold normalizeMsgs
  rw [normalize_foldl_eq]
  simp [List.filterMap_cons, List.filter_cons, hk]

/-- C7 (confirmed): the normalised payload list is exactly the null/blank
payloads dropped and each retained payload truncated to its first 2000
characters, in submission order; on `["", "hello", None]` it is exactly
`["hello"]`, and a 3000-character payload is kept as exactly its first 2000
characters with no error. -/
theorem C7_normalization :
    (∀ (m1 : String) (m2 m3 : Option String),
        normalizeMsgs m1 m2 m3 = normalizeSpecSide m1 m2 m3) ∧
    normalizeMsgs "" (some "hello") none = ["hello"] ∧
    normalizeMsgs (String.mk (List.replicate 3000 'a')) none none
      = [String.mk (List.replicate 2000 'a')] := by
  refine ⟨fun m1 m2 m3 => normalize_foldl_eq _, by decide, ?_⟩
  have hsp : pyIsSpace 'a' = false := by decide
  have hall : (String.mk (List.replicate 3000 'a')).data.all pyIsSpace = false := by
    show (List.replicate 3000 'a').all pyIsSpace = false
    rw [List.all_replicate]
    simp [hsp]
  have htake : (String.mk (List.replicate 3000 'a')).data.take 2000
      = List.replicate 2000 'a' := by
    show (List.replicate 3000 'a').take 2000 = List.replicate 2000 'a'
    rw [List.take_replicate]
    norm_num
  rw [normalizeMsgs_single _ hall, htake]

/-! ### Characterisation of the nickname batch loop -/

/-- A target passes both hard rules (not the owner, strictly below the bot's
top role) and therefore gets an edit call. -/
def nickAttempted (ownerId botTopPos : Int) (m : Member) : Bool :=
  !(m.id == ownerId) && decide (m.topRolePos < botTopPos)

/-- Whether an edit outcome is a success. -/
def isOkEdit : EditOutcome → Bool
  | EditOutcome.ok => true
  | EditOutcome.forbidden => false
  | EditOutcome.err _ => false

/-- A target that ends up in `success`: attempted and the edit succeeded. -/
def nickOk (ownerId botTopPos : Int) (edit : Member → EditOutcome)
    (m : Member) : Bool :=
  nickAttempted ownerId botTopPos m && isOkEdit (edit m)

/-- The reason string recorded for a target that ends up in `failed`
(meaningless for a succeeding target). -/
def nickFailReason (ownerId botTopPos : Int) (edit : Member → EditOutcome)
    (m : Member) : String :=
  if m.id == ownerId then "Server owner (cannot change)"
  else if botTopPos ≤ m.topRolePos then "Role is equal or higher than bot"
  else
    match edit m with
    | EditOutcome.ok => ""
    | EditOutcome.forbidden => "Forbidden"
    | EditOutcome.err e => "Error: " ++ e

/-- The loop's three output sequences are the evident filters of the target
list, each in target order. -/
theorem nickLoop_eq (ownerId botTopPos : Int) (edit : Member → EditOutcome)
    (ts : List Member) :
    nickLoop ownerId botTopPos edit ts =
      ⟨(ts.filter (nickOk ownerId botTopPos edit)).map Member.displayName,
        (ts.filter (fun m => !nickOk ownerId botTopPos edit m)).map
          (fun m => (m.displayName, nickFailReason ownerId botTopPos edit m)),
        ts.filter (nickAttempted ownerId botTopPos)⟩ := by
  induction ts with
  | nil => rfl
  | cons m rest ih =>
    simp only [nickLoop, ih, List.filter_cons]
    cases h1 : (m.id == ownerId) with
    | true =>
      have h1p : m.id = ownerId := by simpa using h1
      simp [nickOk, nickAttempted, nickFailReason, h1, h1p]
    | false =>
      have h1p : ¬ m.id = ownerId := by simpa using h1
      by_cases h2 : botTopPos ≤ m.topRolePos
      · have h2d : decide (m.topRolePos < botTopPos) = false := by
          simp [not_lt.mpr h2]
        simp [nickOk, nickAttempted, nickFailReason, h1, h1p, h2, h2d]
      · have h2d : decide (m.topRolePos < botTopPos) = true := by
          simp [not_le.mp h2]
        cases hedit : edit m with
        | ok =>
          simp [nickOk, nickAttempted, nickFailReason, isOkEdit, h1, h1p, h2,
            h2d, hedit]
        | forbidden =>
          simp [nickOk, nickAttempted, nickFailReason, isOkEdit, h1, h1p, h2,
            h2d, hedit]
        | err e =>
          simp [nickOk, nickAttempted, nickFailReason, isOkEdit, h1, h1p, h2,
            h2d, hedit]

/-- Partition property of the loop alone: each target contributes exactly one
entry, to `success` or to `failed`. -/
theorem batch_partition (ownerId botTopPos : Int) (edit : Member → EditOutcome)
    (ts : List Member) :
    (nickLoop ownerId botTopPos edit ts).success.length
        + (nickLoop ownerId botTopPos edit ts).failed.length = ts.length ∧
    ((nickLoop ownerId botTopPos edit ts).success
        ++ (nickLoop ownerId botTopPos edit ts).failed.map Prod.fst).Perm
      (ts.map Member.displayName) := by
  rw [nickLoop_eq]
  constructor
  · simpa using
      (List.filter_append_perm (nickOk ownerId botTopPos edit) ts).length_eq
  · have hfst :
        ((ts.filter (fun m => !nickOk ownerId botTopPos edit m)).map
            (fun m => (m.displayName, nickFailReason ownerId botTopPos edit m))).map
          Prod.fst
          = (ts.filter (fun m => !nickOk ownerId botTopPos edit m)).map
              Member.displayName := by
      rw [List.map_map]
      rfl
    show ((ts.filter (nickOk ownerId botTopPos edit)).map Member.displayName
        ++ _).Perm _
    rw [hfst, ← List.map_append]
    exact (List.filter_append_perm (nickOk ownerId botTopPos edit) ts).map
      Member.displayName

/-- The partition property lifted to the batch phase of `changenick`. -/
theorem runBatch_partition (guild : Guild) (bm : Member)
    (edit : Member → EditOutcome) (ts : List Member) :
    (runBatch guild bm edit ts).success.length
        + (runBatch guild bm edit ts).failed.length
      = (runBatch guild bm edit ts).targets.length ∧
    ((runBatch guild bm edit ts).success
        ++ (runBatch guild bm edit ts).failed.map Prod.fst).Perm
      ((runBatch guild bm edit ts).targets.map Member.displayName) := by
  simpa [runBatch] using batch_partition guild.ownerId bm.topRolePos edit ts

/-- C4 (confirmed): for every invocation of the nickname batch command, the
`success` and `failed` sequences partition the attempted target list: their
lengths sum to the number of attempted targets, and together (as display
names) they are a permutation of the attempted targets' display names — no
omissions, no duplicates. -/
theorem C4_partition (g : Option Guild) (invoker : Invoker) (botId : Int)
    (edit : Member → EditOutcome) (member : Option Member)
    (change_many : Bool) :
    (changenick g invoker botId edit member change_many).success.length
        + (changenick g invoker botId edit member change_many).failed.length
      = (changenick g invoker botId edit member change_many).targets.length ∧
    ((changenick g invoker botId edit member change_many).success
        ++ (changenick g invoker botId edit member change_many).failed.map
            Prod.fst).Perm
      ((changenick g invoker botId edit member change_many).targets.map
        Member.displayName) := by
  unfold changenick
  cases g with
  | none => exact ⟨rfl, List.Perm.refl _⟩
  | some guild =>
    repeat'
      first
      | exact ⟨rfl, List.Perm.refl _⟩
      | exact runBatch_partition _ _ _ _
      | split

/-! ### Branch lemmas for `changenick` -/

theorem runBatch_targets (guild : Guild) (bm : Member)
    (edit : Member → EditOutcome) (ts : List Member) :
    (runBatch guild bm edit ts).targets = ts := rfl

theorem runBatch_success (guild : Guild) (bm : Member)
    (edit : Member → EditOutcome) (ts : List Member) :
    (runBatch guild bm edit ts).success
      = (nickLoop guild.ownerId bm.topRolePos edit ts).success := rfl

theorem runBatch_failed (guild : Guild) (bm : Member)
    (edit : Member → EditOutcome) (ts : List Member) :
    (runBatch guild bm edit ts).failed
      = (nickLoop guild.ownerId bm.topRolePos edit ts).failed := rfl

theorem runBatch_editCalls (guild : Guild) (bm : Member)
    (edit : Member → EditOutcome) (ts : List Member) :
    (runBatch guild bm edit ts).editCalls
      = (nickLoop guild.ownerId bm.topRolePos edit ts).editCalls := rfl

/-- With all preconditions passing and `change_many` set, `changenick` is the
batch phase over the `resolveMany` target list. -/
theorem changenick_many_eq (guild : Guild) (invoker : Invoker) (botId : Int)
    (edit : Member → EditOutcome) (member : Option Member) (bm : Member)
    (hperm : (invoker.manageNicknames || invoker.id == guild.ownerId) = true)
    (hfind : guild.members.find? (fun m => m.id == botId) = some bm)
    (hbm : bm.manageNicknames = true) :
    changenick (some guild) invoker botId edit member true
      = runBatch guild bm edit (resolveMany guild botId) := by
  simp [changenick, hperm, hfind, hbm]

/-- With all preconditions passing, `change_many` unset and a member given,
`changenick` is the batch phase over that single member. -/
theorem changenick_single_eq (guild : Guild) (invoker : Invoker) (botId : Int)
    (edit : Member → EditOutcome) (mm : Member) (bm : Member)
    (hperm : (invoker.manageNicknames || invoker.id == guild.ownerId) = true)
    (hfind : guild.members.find? (fun m => m.id == botId) = some bm)
    (hbm : bm.manageNicknames = true) :
    changenick (some guild) invoker botId edit (some mm) false
      = runBatch guild bm edit [mm] := by
  simp [changenick, hperm, hfind, hbm]

/-- With all preconditions passing, `change_many` unset and no member given,
`changenick` rejects with no targets. -/
theorem changenick_nomember_eq (guild : Guild) (invoker : Invoker) (botId : Int)
    (edit : Member → EditOutcome) (bm : Member)
    (hperm : (invoker.manageNicknames || invoker.id == guild.ownerId) = true)
    (hfind : guild.members.find? (fun m => m.id == botId) = some bm)
    (hbm : bm.manageNicknames = true) :
    changenick (some guild) invoker botId edit none false
      = ⟨NickReply.needMember, [], [], [], []⟩ := by
  simp [changenick, hperm, hfind, hbm]

/-- The `change_many` target list is always the first `MAX_CHANGE` eligible
members (the explicit length test in the source is equivalent to `take`). -/
theorem resolveMany_eq_take (guild : Guild) (botId : Int) :
    resolveMany guild botId
      = (guild.members.filter (fun m => !m.bot && !(m.id == botId))).take
          MAX_CHANGE := by
  unfold resolveMany
  dsimp only
  split_ifs with h
  · rfl
  · rw [List.take_of_length_le (le_of_not_lt h)]

/-! ### Claim C5: change-many target resolution -/

/-- C5 (confirmed): with `change_many` set and all preconditions passing, the
attempted target list is exactly the guild's member list with bots and the
bot itself removed, truncated to the first `MAX_CHANGE = 50` entries in the
platform's enumeration order; the `success`, `failed` and `editCalls`
sequences are drawn from that truncated list only, so members beyond the cap
are neither attempted nor reported. -/
theorem C5_change_many_targets (guild : Guild) (invoker : Invoker)
    (botId : Int) (edit : Member → EditOutcome) (member : Option Member)
    (bm : Member)
    (hperm : (invoker.manageNicknames || invoker.id == guild.ownerId) = true)
    (hfind : guild.members.find? (fun m => m.id == botId) = some bm)
    (hbm : bm.manageNicknames = true) :
    (changenick (some guild) invoker botId edit member true).targets
        = (guild.members.filter (fun m => !m.bot && !(m.id == botId))).take
            MAX_CHANGE ∧
    (changenick (some guild) invoker botId edit member true).targets.length
        ≤ MAX_CHANGE ∧
    (changenick (some guild) invoker botId edit member true).success
        = ((changenick (some guild) invoker botId edit member true).targets.filter
              (nickOk guild.ownerId bm.topRolePos edit)).map Member.displayName ∧
    (changenick (some guild) invoker botId edit member true).failed
        = ((changenick (some guild) invoker botId edit member true).targets.filter
              (fun m => !nickOk guild.ownerId bm.topRolePos edit m)).map
            (fun m =>
              (m.displayName, nickFailReason guild.ownerId bm.topRolePos edit m)) ∧
    (changenick (some guild) invoker botId edit member true).editCalls
        = (changenick (some guild) invoker botId edit member true).targets.filter
            (nickAttempted guild.ownerId bm.topRolePos) := by
  rw [changenick_many_eq guild invoker botId edit member bm hperm hfind hbm,
    runBatch_targets, runBatch_success, runBatch_failed, runBatch_editCalls,
    nickLoop_eq, resolveMany_eq_take]
  exact ⟨rfl, List.length_take_le _ _, rfl, rfl, rfl⟩

/-- An eligible (non-bot) plain member used in concrete examples. -/
def exMember (i : Nat) : Member := ⟨Int.ofNat i, false, "", 0, false⟩

/-- The bot's own member entry used in concrete examples. -/
def exBotMember : Member := ⟨1000, true, "bot", 5, true⟩

/-- A guild with the bot plus 51 eligible members. -/
def exGuild51 : Guild := ⟨999, exBotMember :: (List.range 51).map exMember⟩

/-- An invoker with Manage Nicknames. -/
def exInvoker : Invoker := ⟨999, true⟩

theorem C5_change_many_targets_witness :
    (changenick (some exGuild51) exInvoker 1000 (fun _ => EditOutcome.ok)
        none true).targets
      = (exGuild51.members.filter (fun m => !m.bot && !(m.id == 1000))).take
          MAX_CHANGE ∧
    (exGuild51.members.filter (fun m => !m.bot && !(m.id == 1000))).length = 51 ∧
    (changenick (some exGuild51) exInvoker 1000 (fun _ => EditOutcome.ok)
        none true).targets.length = 50 := by
  have h := C5_change_many_targets exGuild51 exInvoker 1000
    (fun _ => EditOutcome.ok) none exBotMember rfl rfl rfl
  refine ⟨h.1, by decide, ?_⟩
  rw [h.1]
  decide

/-! ### Claim C6: hard rules (owner, hierarchy) -/

theorem nickLoop_hard_rules (ownerId botTopPos : Int)
    (edit : Member → EditOutcome) (ts : List Member) (m : Member)
    (hm : m ∈ ts) :
    (m.id = ownerId →
      (m.displayName, "Server owner (cannot change)")
          ∈ (nickLoop ownerId botTopPos edit ts).failed ∧
      m ∉ (nickLoop ownerId botTopPos edit ts).editCalls) ∧
    (¬ m.id = ownerId → botTopPos ≤ m.topRolePos →
      (m.displayName, "Role is equal or higher than bot")
          ∈ (nickLoop ownerId botTopPos edit ts).failed ∧
      m ∉ (nickLoop ownerId botTopPos edit ts).editCalls) := by
  rw [nickLoop_eq]
  constructor
  · intro ho
    have hatt : nickAttempted ownerId botTopPos m = false := by
      simp [nickAttempted, ho]
    have hok : (!nickOk ownerId botTopPos edit m) = true := by
      simp [nickOk, hatt]
    have hreason : nickFailReason ownerId botTopPos edit m
        = "Server owner (cannot change)" := by
      simp [nickFailReason, ho]
    constructor
    · have hmem : m ∈ ts.filter (fun x => !nickOk ownerId botTopPos edit x) :=
        List.mem_filter.mpr ⟨hm, hok⟩
      simpa [hreason] using List.mem_map_of_mem
        (fun x => (x.displayName, nickFailReason ownerId botTopPos edit x)) hmem
    · intro hcall
      have := (List.mem_filter.mp hcall).2
      rw [hatt] at this
      simp at this
  · intro ho hrole
    have hatt : nickAttempted ownerId botTopPos m = false := by
      simp [nickAttempted, not_lt.mpr hrole]
    have hok : (!nickOk ownerId botTopPos edit m) = true := by
      simp [nickOk, hatt]
    have hreason : nickFailReason ownerId botTopPos edit m
        = "Role is equal or higher than bot" := by
      simp [nickFailReason, ho, hrole]
    constructor
    · have hmem : m ∈ ts.filter (fun x => !nickOk ownerId botTopPos edit x) :=
        List.mem_filter.mpr ⟨hm, hok⟩
      simpa [hreason] using List.mem_map_of_mem
        (fun x => (x.displayName, nickFailReason ownerId botTopPos edit x)) hmem
    · intro hcall
      have := (List.mem_filter.mp hcall).2
      rw [hatt] at this
      simp at this

/-- C6 (confirmed): for every attempted target of the nickname batch: if the
target is the guild owner it lands in `failed` with the fixed owner reason
(the source string "Server owner (cannot change)") and no edit call is made
for it; otherwise, if the bot's top role rank is not strictly greater than
the target's, it lands in `failed` with the fixed hierarchy reason (the
source string "Role is equal or higher than bot") and no edit call is made.
Hard-rule targets are never silently dropped. -/
theorem C6_hard_rules (guild : Guild) (invoker : Invoker) (botId : Int)
    (edit : Member → EditOutcome) (member : Option Member)
    (change_many : Bool) (bm : Member)
    (hperm : (invoker.manageNicknames || invoker.id == guild.ownerId) = true)
    (hfind : guild.members.find? (fun m => m.id == botId) = some bm)
    (hbm : bm.manageNicknames = true) (m : Member)
    (hm : m ∈ (changenick (some guild) invoker botId edit member
        change_many).targets) :
    (m.id = guild.ownerId →
      (m.displayName, "Server owner (cannot change)")
          ∈ (changenick (some guild) invoker botId edit member
              change_many).failed ∧
      m ∉ (changenick (some guild) invoker botId edit member
            change_many).editCalls) ∧
    (¬ m.id = guild.ownerId → bm.topRolePos ≤ m.topRolePos →
      (m.displayName, "Role is equal or higher than bot")
          ∈ (changenick (some guild) invoker botId edit member
              change_many).failed ∧
      m ∉ (changenick (some guild) invoker botId edit member
            change_many).editCalls) := by
  cases change_many with
  | true =>
    rw [changenick_many_eq guild invoker botId edit member bm hperm hfind hbm]
      at hm ⊢
    rw [runBatch_targets] at hm
    rw [runBatch_failed, runBatch_editCalls]
    exact nickLoop_hard_rules guild.ownerId bm.topRolePos edit _ m hm
  | false =>
    cases member with
    | none =>
      rw [changenick_nomember_eq guild invoker botId edit bm hperm hfind hbm]
        at hm
      exact absurd hm (List.not_mem_nil m)
    | some mm =>
      rw [changenick_single_eq guild invoker botId edit mm bm hperm hfind hbm]
        at hm ⊢
      rw [runBatch_targets] at hm
      rw [runBatch_failed, runBatch_editCalls]
      exact nickLoop_hard_rules guild.ownerId bm.topRolePos edit _ m hm

/-- The guild owner as a member entry, used in concrete examples. -/
def exOwnerMember : Member := ⟨999, false, "owner", 0, false⟩

/-- A member outranking the bot, used in concrete examples. -/
def exHighMember : Member := ⟨2, false, "high", 9, false⟩

/-- A guild containing the bot, its owner and a high-ranked member. -/
def exGuildHard : Guild := ⟨999, [exBotMember, exOwnerMember, exHighMember]⟩

theorem C6_hard_rules_witness :
    (exOwnerMember.id = exGuildHard.ownerId →
      (exOwnerMember.displayName, "Server owner (cannot change)")
          ∈ (changenick (some exGuildHard) exInvoker 1000
              (fun _ => EditOutcome.ok) none true).failed ∧
      exOwnerMember ∉ (changenick (some exGuildHard) exInvoker 1000
            (fun _ => EditOutcome.ok) none true).editCalls) ∧
    (¬ exOwnerMember.id = exGuildHard.ownerId →
      exBotMember.topRolePos ≤ exOwnerMember.topRolePos →
      (exOwnerMember.displayName, "Role is equal or higher than bot")
          ∈ (changenick (some exGuildHard) exInvoker 1000
              (fun _ => EditOutcome.ok) none true).failed ∧
      exOwnerMember ∉ (changenick (some exGuildHard) exInvoker 1000
            (fun _ => EditOutcome.ok) none true).editCalls) :=
  C6_hard_rules exGuildHard exInvoker 1000 (fun _ => EditOutcome.ok) none true
    exBotMember rfl rfl rfl exOwnerMember (by decide)

/-! ### Claim C8: fail-fast preconditions -/

/-- C8 (confirmed): the nickname batch command fails fast — a reject reply
and a result with no targets, no success/failed entries and no edit calls —
when there is no guild context; when the invoker lacks Manage Nicknames and
is not the guild owner; or when the bot's own member is missing or lacks
Manage Nicknames. -/
theorem C8_fail_fast (g : Option Guild) (invoker : Invoker) (botId : Int)
    (edit : Member → EditOutcome) (member : Option Member)
    (change_many : Bool) :
    (g = none →
      changenick g invoker botId edit member change_many
        = ⟨NickReply.notInGuild, [], [], [], []⟩) ∧
    (∀ guild, g = some guild →
      (invoker.manageNicknames || invoker.id == guild.ownerId) = false →
      changenick g invoker botId edit member change_many
        = ⟨NickReply.needPerm, [], [], [], []⟩) ∧
    (∀ guild, g = some guild →
      (invoker.manageNicknames || invoker.id == guild.ownerId) = true →
      (∀ bm, guild.members.find? (fun m => m.id == botId) = some bm →
          bm.manageNicknames = false) →
      changenick g invoker botId edit member change_many
        = ⟨NickReply.botNeedPerm, [], [], [], []⟩) := by
  refine ⟨?_, ?_, ?_⟩
  · intro h
    subst h
    rfl
  · intro guild hg hperm
    subst hg
    simp [changenick, hperm]
  · intro guild hg hperm hbm
    subst hg
    cases hfind : guild.members.find? (fun m => m.id == botId) with
    | none => simp [changenick, hperm, hfind]
    | some bm => simp [changenick, hperm, hfind, hbm bm hfind]

theorem C8_fail_fast_witness :
    changenick none exInvoker 1000 (fun _ => EditOutcome.ok) none false
      = ⟨NickReply.notInGuild, [], [], [], []⟩ :=
  (C8_fail_fast none exInvoker 1000 (fun _ => EditOutcome.ok) none false).1 rfl

/-! ### Claim C10: the member argument is ignored when change_many is set -/

/-- C10 (confirmed): with `change_many` set, the optional member argument is
ignored entirely — two invocations differing only in that argument produce
identical results (same reply and summary, same targets, same success/failed
sequences, same edit calls). -/
theorem C10_member_ignored (g : Option Guild) (invoker : Invoker)
    (botId : Int) (edit : Member → EditOutcome) (mA mB : Option Member) :
    changenick g invoker botId edit mA true
      = changenick g invoker botId edit mB true := by
  cases g with
  | none => rfl
  | some guild => rfl

/-! ### Claims C3 and C9: the message relay -/

theorem pyOrZero_none : pyOrZero none = 0 := rfl

theorem dictGet_set_self (d : List (Int × ℚ)) (k : Int) (v : ℚ) :
    dictGet (dictSet d k v) k = some v := by
  unfold dictGet dictSet
  rw [List.find?_cons_of_pos _ (by simp)]
  rfl

/-- If every send succeeds, the loop delivers every payload in order. -/
theorem sendLoop_all_ok (send : Nat → SendOutcome) (msgs : List String)
    (i : Nat) (h : ∀ j, j < msgs.length → send (i + j) = SendOutcome.ok) :
    sendLoop send i msgs = ⟨msgs, msgs.length, none⟩ := by
  induction msgs generalizing i with
  | nil => rfl
  | cons c rest ih =>
    have h0 : send i = SendOutcome.ok := by
      have := h 0 (Nat.succ_pos _)
      simpa using this
    have hrest : ∀ j, j < rest.length → send (i + 1 + j) = SendOutcome.ok := by
      intro j hj
      have := h (j + 1) (by simpa using Nat.succ_lt_succ hj)
      rwa [show i + (j + 1) = i + 1 + j by omega] at this
    simp only [sendLoop, h0, ih (i + 1) hrest]
    simp

/-- If the first failure is at relative position `k`, the loop delivers
exactly the first `k` payloads, makes `k + 1` send calls, and reports the
failing outcome. -/
theorem sendLoop_first_fail (send : Nat → SendOutcome) (msgs : List String)
    (i k : Nat) (hk : k < msgs.length)
    (hpre : ∀ j, j < k → send (i + j) = SendOutcome.ok)
    (hf : send (i + k) ≠ SendOutcome.ok) :
    sendLoop send i msgs
      = ⟨msgs.take k, k + 1, outcomeFailure (send (i + k))⟩ := by
  induction msgs generalizing i k with
  | nil => exact absurd hk (Nat.not_lt_zero k)
  | cons c rest ih =>
    cases k with
    | zero =>
      rw [Nat.add_zero] at hf
      cases hs : send i with
      | ok => exact absurd hs hf
      | forbidden => simp [sendLoop, hs, outcomeFailure]
      | err e => simp [sendLoop, hs, outcomeFailure]
    | succ k2 =>
      have h0 : send i = SendOutcome.ok := by
        have := hpre 0 (Nat.succ_pos _)
        simpa using this
      have hpre2 : ∀ j, j < k2 → send (i + 1 + j) = SendOutcome.ok := by
        intro j hj
        have := hpre (j + 1) (Nat.succ_lt_succ hj)
        rwa [show i + (j + 1) = i + 1 + j by omega] at this
      have hf2 : send (i + 1 + k2) ≠ SendOutcome.ok := by
        rwa [show i + (k2 + 1) = i + 1 + k2 by omega] at hf
      simp only [sendLoop, h0,
        ih (i + 1) k2 (by simpa using hk) hpre2 hf2]
      simp [show i + 1 + k2 = i + (k2 + 1) by omega]

/-- C3 (confirmed): in the message relay, once both cooldown checks pass and
at least one payload remains: if the `i`-th of the `n` normalised sends is
the first to fail, then exactly the payloads before `i` were delivered (and
stand), exactly `i + 1` send calls were made (none after the failure),
neither cooldown map is updated, and the final response is the
permission-specific message exactly when the failure was a permission
denial, otherwise the generic message carrying the error detail.  Both
cooldown maps are updated — at the post-success clock readings — only when
all `n` sends succeed. -/
theorem C3_relay_partial_failure (u gl : List (Int × ℚ)) (time : Nat → ℚ)
    (send : Nat → SendOutcome) (uid : Int) (guildId : Option Int)
    (m1 : String) (m2 m3 : Option String)
    (hu : pyTruthyInt (is_on_user_cooldown u (time 0) uid) = false)
    (hg : pyTruthyInt
        (is_on_guild_cooldown gl (time 1) (pyOrZero guildId)) = false)
    (hm : (normalizeMsgs m1 m2 m3).isEmpty = false) :
    (∀ i, i < (normalizeMsgs m1 m2 m3).length →
      (∀ j, j < i → send j = SendOutcome.ok) → send i ≠ SendOutcome.ok →
      (sendms u gl time send uid guildId m1 m2 m3).sent
          = (normalizeMsgs m1 m2 m3).take i ∧
      (sendms u gl time send uid guildId m1 m2 m3).sendCalls = i + 1 ∧
      (sendms u gl time send uid guildId m1 m2 m3).user_last = u ∧
      (sendms u gl time send uid guildId m1 m2 m3).guild_last = gl ∧
      (send i = SendOutcome.forbidden →
        (sendms u gl time send uid guildId m1 m2 m3).responses
          = [Reply.ack, Reply.forbiddenMsg]) ∧
      (∀ e, send i = SendOutcome.err e →
        (sendms u gl time send uid guildId m1 m2 m3).responses
          = [Reply.ack, Reply.genericFail e])) ∧
    ((∀ j, j < (normalizeMsgs m1 m2 m3).length → send j = SendOutcome.ok) →
      (sendms u gl time send uid guildId m1 m2 m3).sent
          = normalizeMsgs m1 m2 m3 ∧
      (sendms u gl time send uid guildId m1 m2 m3).sendCalls
          = (normalizeMsgs m1 m2 m3).length ∧
      (sendms u gl time send uid guildId m1 m2 m3).user_last
          = dictSet u uid (time 2) ∧
      (sendms u gl time send uid guildId m1 m2 m3).guild_last
          = dictSet gl (pyOrZero guildId) (time 3) ∧
      (sendms u gl time send uid guildId m1 m2 m3).responses
          = [Reply.ack, Reply.sentOk (normalizeMsgs m1 m2 m3).length]) := by
  constructor
  · intro i hi hpre hf
    have hL : sendLoop send 0 (normalizeMsgs m1 m2 m3)
        = ⟨(normalizeMsgs m1 m2 m3).take i, i + 1, outcomeFailure (send i)⟩ := by
      have := sendLoop_first_fail send (normalizeMsgs m1 m2 m3) 0 i hi
        (by intro j hj; simpa using hpre j hj) (by simpa using hf)
      simpa using this
    cases hs : send i with
    | ok => exact absurd hs hf
    | forbidden =>
      rw [hs] at hL
      have hres : sendms u gl time send uid guildId m1 m2 m3
          = ⟨[Reply.ack, Reply.forbiddenMsg],
              (normalizeMsgs m1 m2 m3).take i, i + 1, u, gl⟩ := by
        simp [sendms, hu, hg, hm, hL, outcomeFailure]
      rw [hres]
      refine ⟨rfl, rfl, rfl, rfl, fun _ => rfl, ?_⟩
      intro e he
      simp at he
    | err e0 =>
      rw [hs] at hL
      have hres : sendms u gl time send uid guildId m1 m2 m3
          = ⟨[Reply.ack, Reply.genericFail e0],
              (normalizeMsgs m1 m2 m3).take i, i + 1, u, gl⟩ := by
        simp [sendms, hu, hg, hm, hL, outcomeFailure]
      rw [hres]
      refine ⟨rfl, rfl, rfl, rfl, ?_, ?_⟩
      · intro he
        simp at he
      · intro e he
        injection he with h1
        subst h1
        rfl
  · intro hall
    have hL : sendLoop send 0 (normalizeMsgs m1 m2 m3)
        = ⟨normalizeMsgs m1 m2 m3, (normalizeMsgs m1 m2 m3).length, none⟩ := by
      exact sendLoop_all_ok send (normalizeMsgs m1 m2 m3) 0
        (by intro j hj; simpa using hall j hj)
    have hres : sendms u gl time send uid guildId m1 m2 m3
        = ⟨[Reply.ack, Reply.sentOk (normalizeMsgs m1 m2 m3).length],
            normalizeMsgs m1 m2 m3, (normalizeMsgs m1 m2 m3).length,
            dictSet u uid (time 2),
            dictSet gl (pyOrZero guildId) (time 3)⟩ := by
      simp [sendms, hu, hg, hm, hL]
    rw [hres]
    exact ⟨rfl, rfl, rfl, rfl, rfl⟩

theorem C3_relay_partial_failure_witness :
    (sendms [] [] (fun n => (100 : ℚ) + n) (fun _ => SendOutcome.forbidden)
        1 (some 2) "a" none none).sent = [] ∧
    (sendms [] [] (fun n => (100 : ℚ) + n) (fun _ => SendOutcome.forbidden)
        1 (some 2) "a" none none).sendCalls = 1 ∧
    (sendms [] [] (fun n => (100 : ℚ) + n) (fun _ => SendOutcome.forbidden)
        1 (some 2) "a" none none).user_last = [] ∧
    (sendms [] [] (fun n => (100 : ℚ) + n) (fun _ => SendOutcome.forbidden)
        1 (some 2) "a" none none).guild_last = [] ∧
    (sendms [] [] (fun n => (100 : ℚ) + n) (fun _ => SendOutcome.forbidden)
        1 (some 2) "a" none none).responses
      = [Reply.ack, Reply.forbiddenMsg] := by
  have h := (C3_relay_partial_failure [] [] (fun n => (100 : ℚ) + n)
      (fun _ => SendOutcome.forbidden) 1 (some 2) "a" none none
      (by with_unfolding_all decide) (by with_unfolding_all decide)
      (by decide)).1 0 (by decide)
      (fun j hj => absurd hj (Nat.not_lt_zero j)) (by decide)
  exact ⟨h.1, h.2.1, h.2.2.1, h.2.2.2.1, h.2.2.2.2.1 rfl⟩

/-- C9 (confirmed): a message-relay invocation made outside any guild uses
the shared scope key `0` for the guild cooldown: after a fully successful
guild-less invocation, the guild map is updated at key `0` with the
post-success clock reading, and any other guild-less invocation (any user)
whose guild-check clock reading is within 4 seconds of that recording is
rejected with the guild-cooldown message, sending nothing and leaving both
maps unchanged. -/
theorem C9_guildless_shared_scope (u gl : List (Int × ℚ)) (time : Nat → ℚ)
    (send : Nat → SendOutcome) (uid1 : Int) (m1 : String)
    (m2 m3 : Option String)
    (hu1 : pyTruthyInt (is_on_user_cooldown u (time 0) uid1) = false)
    (hg1 : pyTruthyInt (is_on_guild_cooldown gl (time 1) 0) = false)
    (hm1 : (normalizeMsgs m1 m2 m3).isEmpty = false)
    (hall : ∀ j, j < (normalizeMsgs m1 m2 m3).length →
        send j = SendOutcome.ok)
    (time2 : Nat → ℚ) (send2 : Nat → SendOutcome) (uid2 : Int)
    (n1 : String) (n2 n3 : Option String)
    (hu2 : pyTruthyInt (is_on_user_cooldown
        (sendms u gl time send uid1 none m1 m2 m3).user_last
        (time2 0) uid2) = false)
    (ht : time2 1 ≤ time 3 + 4) :
    (sendms u gl time send uid1 none m1 m2 m3).guild_last
        = dictSet gl 0 (time 3) ∧
    sendms (sendms u gl time send uid1 none m1 m2 m3).user_last
        (sendms u gl time send uid1 none m1 m2 m3).guild_last
        time2 send2 uid2 none n1 n2 n3
      = ⟨[Reply.guildCooldown], [], 0,
          (sendms u gl time send uid1 none m1 m2 m3).user_last,
          (sendms u gl time send uid1 none m1 m2 m3).guild_last⟩ := by
  have hL : sendLoop send 0 (normalizeMsgs m1 m2 m3)
      = ⟨normalizeMsgs m1 m2 m3, (normalizeMsgs m1 m2 m3).length, none⟩ :=
    sendLoop_all_ok send (normalizeMsgs m1 m2 m3) 0
      (by intro j hj; simpa using hall j hj)
  have hres1 : sendms u gl time send uid1 none m1 m2 m3
      = ⟨[Reply.ack, Reply.sentOk (normalizeMsgs m1 m2 m3).length],
          normalizeMsgs m1 m2 m3, (normalizeMsgs m1 m2 m3).length,
          dictSet u uid1 (time 2), dictSet gl 0 (time 3)⟩ := by
    simp [sendms, hu1, hg1, hm1, hL, pyOrZero]
  rw [hres1] at hu2 ⊢
  refine ⟨rfl, ?_⟩
  have hrem : (0 : ℚ) < GUILD_COOLDOWN_SECS - (time2 1 - time 3) := by
    unfold GUILD_COOLDOWN_SECS
    linarith
  have hfloor : (1 : ℤ) ≤ ⌊GUILD_COOLDOWN_SECS - (time2 1 - time 3)⌋ := by
    rw [Int.le_floor]
    unfold GUILD_COOLDOWN_SECS
    push_cast
    linarith
  have hgc : is_on_guild_cooldown (dictSet gl 0 (time 3)) (time2 1) 0
      = some ⌊GUILD_COOLDOWN_SECS - (time2 1 - time 3)⌋ := by
    unfold is_on_guild_cooldown
    rw [dictGet_set_self]
    simp only [Option.getD_some]
    rw [if_pos hrem, pyInt_eq_floor _ hrem.le]
  have hw : pyTruthyInt (is_on_guild_cooldown (dictSet gl 0 (time 3))
      (time2 1) 0) = true := by
    rw [hgc]
    simp only [pyTruthyInt, Bool.not_eq_true']
    simp only [beq_eq_false_iff_ne, ne_eq]
    intro hzero
    rw [hzero] at hfloor
    exact absurd hfloor (by norm_num)
  simp [sendms, hu2, hw, pyOrZero]

theorem C9_guildless_shared_scope_witness :
    (sendms [] [] (fun n => (100 : ℚ) + n) (fun _ => SendOutcome.ok)
        1 none "a" none none).guild_last
      = dictSet [] 0 ((fun n => (100 : ℚ) + n) 3) ∧
    sendms (sendms [] [] (fun n => (100 : ℚ) + n) (fun _ => SendOutcome.ok)
        1 none "a" none none).user_last
        (sendms [] [] (fun n => (100 : ℚ) + n) (fun _ => SendOutcome.ok)
          1 none "a" none none).guild_last
        (fun n => (105 : ℚ) + n) (fun _ => SendOutcome.ok) 2 none "b" none none
      = ⟨[Reply.guildCooldown], [], 0,
          (sendms [] [] (fun n => (100 : ℚ) + n) (fun _ => SendOutcome.ok)
            1 none "a" none none).user_last,
          (sendms [] [] (fun n => (100 : ℚ) + n) (fun _ => SendOutcome.ok)
            1 none "a" none none).guild_last⟩ :=
  C9_guildless_shared_scope [] [] (fun n => (100 : ℚ) + n)
    (fun _ => SendOutcome.ok) 1 "a" none none
    (by with_unfolding_all decide) (by with_unfolding_all decide)
    (by decide) (fun j hj => rfl)
    (fun n => (105 : ℚ) + n) (fun _ => SendOutcome.ok) 2 "b" none none
    (by with_unfolding_all decide) (by with_unfolding_all decide)

end Bot
